import Mathlib

/-!
Verification of the smart-fridge ingest/recipe server (`src/index.js`).

The JavaScript program is shallowly embedded: every pure computation is a
Lean function translated from the source, and each interaction with an
external collaborator (the vision subprocess, the hosted text-generation
service, the Mongo document store's write outcomes and `$sample` result)
is an explicit parameter of the embedded handler.  Text handled at the
character level (the recipe parser) is modelled as `List Char`; other
strings are Lean `String`s.  JavaScript numbers that the claims touch are
modelled as `Int` (dates as epoch milliseconds), with `Option` for
`undefined`/`null`/NaN where the source distinguishes them.
-/

namespace Iot

/-- JS whitespace as used by `\s`, `String.prototype.trim` on the ASCII
range handled here: space, tab, newline, carriage return, vertical tab,
form feed. -/
def isWS (c : Char) : Bool :=
  c = ' ' || c = '\t' || c = '\n' || c = '\r' || c = '\x0b' || c = '\x0c'

/-- JS `s.trim()` on a character list: drop whitespace from both ends. -/
def trimList (s : List Char) : List Char :=
  ((s.dropWhile isWS).reverse.dropWhile isWS).reverse

/-! ## Sensor Evaluator (`runSensorLogic`, src/index.js lines 52-65) -/

/-- The sensor fields of an inbound report.  `none` models a missing
(`undefined`) field. -/
structure SensorData where
  gas_level_percent : Option Int
  door_status : Option String
deriving DecidableEq, Repr

structure AlertState where
  is_alert : Bool
  alert_reason : String
deriving DecidableEq, Repr

/-- JS `data.gas_level_percent > 50`: comparison with `undefined` is
`NaN > 50`, which is false. -/
def gasHigh (d : SensorData) : Bool :=
  match d.gas_level_percent with
  | some g => g > 50
  | none => false

/-- The function `runSensorLogic` (src/index.js lines 52-65). -/
def runSensorLogic (d : SensorData) : AlertState :=
  if gasHigh d then
    ⟨true, "Sensor Alert: High gas level detected!"⟩
  else if d.door_status = some "open" then
    ⟨true, "Sensor Alert: Door is open."⟩
  else
    ⟨false, "Sensor: All clear."⟩

/-! ## Fridge state store and the ingest handler (`/api/pi-data`) -/

/-- An item as produced by the vision subprocess (`detected_items`
entries): a name plus an optional raw expiration-date string. -/
structure DetectedItem where
  name : String
  expiration_date : Option String
deriving DecidableEq, Repr

/-- A persisted fridge item (`fridge_items` document, modulo the
store-assigned `_id`): the detected fields with `expiration_date`
converted to a date value (epoch ms; `none` models BSON null) and the
added `last_seen` timestamp. -/
structure FridgeItem where
  name : String
  expiration_date : Option Int
  last_seen : Int
deriving DecidableEq, Repr

/-- The `itemsToInsert` map (src/index.js lines 243-248):
`expiration_date: item.expiration_date ? new Date(...) : null` —
JS truthiness makes both a missing date and an empty string `null`;
`parseDate` abstracts `new Date(string).getTime()` as serialized by the
driver. -/
def toFridgeItem (parseDate : String → Int) (server_timestamp : Int)
    (it : DetectedItem) : FridgeItem :=
  { name := it.name
    expiration_date :=
      match it.expiration_date with
      | some s => if s ≠ "" then some (parseDate s) else none
      | none => none
    last_seen := server_timestamp }

/-- The fridge-state update of the ingest handler (src/index.js lines
237-253): `deleteMany({})` followed by `insertMany(itemsToInsert)` —
the prior contents are discarded wholesale. -/
def replaceFridge (parseDate : String → Int) (server_timestamp : Int)
    (items : List DetectedItem) (_prior : List FridgeItem) : List FridgeItem :=
  items.map (toFridgeItem parseDate server_timestamp)

/-- Endpoint `/api/fridge-contents` (src/index.js lines 286-298): `find({})`,
returning the whole collection. -/
def listAll (store : List FridgeItem) : List FridgeItem := store

/-- The item content the caller compares against: the persisted fields
minus the added `last_seen` timestamp (the `_id` is not modelled). -/
def stripMeta (it : FridgeItem) : String × Option Int :=
  (it.name, it.expiration_date)

/-! ## Ingest handler (`/api/pi-data`, src/index.js lines 200-283) -/

/-- The inbound request body fields the handler reads.  `none` models an
absent field. -/
structure PiRequest where
  image_base64 : Option String
  gas_level_percent : Option Int
  door_status : Option String
  event : Option String
deriving DecidableEq, Repr

/-- JS truthiness of `data.image_base64`: present and non-empty. -/
def imagePresent (r : PiRequest) : Bool :=
  match r.image_base64 with
  | some s => s ≠ ""
  | none => false

structure MLResult where
  detected_items : List DetectedItem
  is_alert : Bool
  alert_reason : String
deriving DecidableEq, Repr

/-- An `events` collection document: the inbound payload (with the added
server timestamp) plus the derived `ml_result`. -/
structure Event where
  payload : PiRequest
  server_timestamp : Int
  ml_result : MLResult
deriving DecidableEq, Repr

/-- The persistent state the handler can touch: the `fridge_items`
snapshot and the append-only `events` collection. -/
structure ServerState where
  fridge : List FridgeItem
  events : List Event
deriving DecidableEq, Repr

inductive IngestResponse where
  /-- Status 400, `"No image_base64 data received"`. -/
  | clientError : IngestResponse
  /-- Status 500 from the outer catch. -/
  | serverError : IngestResponse
  /-- Status 200 with the combined `ml_result`. -/
  | success (ml : MLResult) : IngestResponse
deriving DecidableEq, Repr

/-- Outcome of the `fridge_items` update attempt (the try/catch at
src/index.js lines 237-256): `none` means both writes succeeded; `some f`
means the attempt threw and was caught, leaving the collection in some
state `f` (the failure may hit `deleteMany` or `insertMany`, so no state
is guaranteed). -/
abbrev FridgeWriteOutcome := Option (List FridgeItem)

/-- The `POST /api/pi-data` handler (src/index.js lines 200-283) as a
state transformer.  External inputs: the vision subprocess outcome
(`Except`, with `.ok` carrying the parsed JSON's optional
`detected_items` field — the source applies `|| []`), the fridge-write
outcome, and whether the fire-and-forget `events` insert succeeds.
Returns the HTTP response and the resulting store state. -/
def processPiData (parseDate : String → Int) (st : ServerState)
    (req : PiRequest) (server_timestamp : Int)
    (vision : Except String (Option (List DetectedItem)))
    (fridgeWrite : FridgeWriteOutcome) (eventWriteOk : Bool) :
    IngestResponse × ServerState :=
  if ¬ imagePresent req then
    (.clientError, st)
  else
    match vision with
    | .error _ => (.serverError, st)
    | .ok vi =>
      let detected := vi.getD []
      let sensor := runSensorLogic ⟨req.gas_level_percent, req.door_status⟩
      let ml : MLResult := ⟨detected, sensor.is_alert, sensor.alert_reason⟩
      let fridge' :=
        match fridgeWrite with
        | none => replaceFridge parseDate server_timestamp detected st.fridge
        | some f => f
      let events' :=
        if eventWriteOk then
          st.events ++ [⟨req, server_timestamp, ml⟩]
        else
          st.events
      (.success ml, ⟨fridge', events'⟩)

/-! ## Recipe Requester (`getRecipeFromHF`, src/index.js lines 122-191) -/

/-- JS `generatedText.split('---')` (src/index.js line 144): scan left to
right, breaking at each occurrence of the three-dash separator. -/
def splitDashes : List Char → List (List Char)
  | '-' :: '-' :: '-' :: rest => [] :: splitDashes rest
  | c :: rest =>
    match splitDashes rest with
    | [] => [[c]]
    | l :: ls => (c :: l) :: ls
  | [] => [[]]

/-- JS `block.trim().split('\n')` splitting step (src/index.js line 161). -/
def splitNl (s : List Char) : List (List Char) :=
  match s with
  | [] => [[]]
  | c :: rest =>
    if c = '\n' then [] :: splitNl rest
    else
      match splitNl rest with
      | [] => [[c]]
      | l :: ls => (c :: l) :: ls

/-- The capture group of `/Label:\s*(.*)/`: after the label, greedily skip
whitespace (`\s` crosses line breaks), then take the rest of the line
(`.` stops at a newline). -/
def captureFrom (r : List Char) : List Char :=
  (r.dropWhile isWS).takeWhile (fun c => c ≠ '\n')

/-- JS `block.match(/Label:\s*(.*)/i)` (src/index.js lines 147-152): find the
first case-insensitive occurrence of the (lowercase) label and return the
capture, or `none` if the label never occurs. -/
def matchLabel (label : List Char) (s : List Char) : Option (List Char) :=
  match s with
  | [] => none
  | c :: rest =>
    if label.isPrefixOf ((c :: rest).map Char.toLower) then
      some (captureFrom ((c :: rest).drop label.length))
    else matchLabel label rest

def titleLabel : List Char := "title:".toList

def descLabel : List Char := "description:".toList

/-- JS `lines[0].replace(/^[0-9]\.\s*/, '')` (src/index.js line 164): strip
one leading digit, a dot and following whitespace, if present. -/
def stripEnum (s : List Char) : List Char :=
  match s with
  | c1 :: c2 :: rest =>
    if c1.isDigit ∧ c2 = '.' then rest.dropWhile isWS else s
  | _ => s

structure Recipe where
  title : List Char
  description : List Char
deriving DecidableEq, Repr

/-- The per-block body of the parsing loop (src/index.js lines 150-169):
if both labels match, one Recipe from the trimmed captures; otherwise the
two-line fallback for blocks with more than 10 trimmed characters. -/
def parseBlock (block : List Char) : List Recipe :=
  match matchLabel titleLabel block, matchLabel descLabel block with
  | some tm, some dm => [{ title := trimList tm, description := trimList dm }]
  | _, _ =>
    let bt := trimList block
    if bt.length > 10 then
      match splitNl bt with
      | l0 :: l1 :: _ =>
        [{ title := trimList (stripEnum l0), description := trimList l1 }]
      | _ => []
    else []

/-- The `parsedRecipes` accumulated by the loop over `recipeBlocks`
(src/index.js lines 144-169). -/
def parsedRecipes (generatedText : List Char) : List Recipe :=
  ((splitDashes generatedText).map parseBlock).flatten

structure RecipeResult where
  recipes : List Recipe
deriving DecidableEq, Repr

/-- The function `getRecipeFromHF` (src/index.js lines 122-191).  The external
text-generation call is the `call` parameter; `.ok raw` carries the
completion with the echoed prompt already removed (the source strips it
with `replace(prompt, '')`), and the source's `.trim()` is applied here.
`.error` models a rejected call, handled by the catch block. -/
def getRecipeFromHF (objects : List String) (call : Except String (List Char)) :
    RecipeResult :=
  if objects.length > 0 then
    match call with
    | .ok raw =>
      let generatedText := trimList raw
      let parsed := parsedRecipes generatedText
      if parsed.length = 0 ∧ generatedText.length > 0 then
        ⟨[{ title := "Generated Recipes (Parsing Failed)".toList
            description := generatedText }]⟩
      else ⟨parsed⟩
    | .error _ =>
      ⟨[{ title := "Recipe Generation Failed".toList
          description := "Could not generate recipe. Check server logs.".toList }]⟩
  else ⟨[]⟩

/-! ## Recipe endpoint (`/api/recipe`, src/index.js lines 301-351) -/

/-- Value of a run of leading decimal digits, or `none` if there is none
(`parseInt` yields NaN). -/
def digitsVal (s : List Char) : Option Nat :=
  let ds := s.takeWhile Char.isDigit
  if ds = [] then none
  else some (ds.foldl (fun acc c => acc * 10 + (c.toNat - '0'.toNat)) 0)

/-- JS `parseInt(s, 10)`: skip leading whitespace, optional sign, then
leading digits; NaN (`none`) when no digit follows. -/
def parseIntChars (s : List Char) : Option Int :=
  match s.dropWhile isWS with
  | '-' :: rest => (digitsVal rest).map (fun n => -(n : Int))
  | '+' :: rest => (digitsVal rest).map (fun n => (n : Int))
  | rest => (digitsVal rest).map (fun n => (n : Int))

def parseIntJs (s : String) : Option Int :=
  parseIntChars s.toList

/-- JS `req.query.days ? parseInt(req.query.days, 10) : 3` (src/index.js
line 303): JS truthiness makes an absent or empty parameter default to 3;
`none` models NaN. -/
def daysToExpire (daysParam : Option String) : Option Int :=
  match daysParam with
  | some s => if s ≠ "" then parseIntJs s else some 3
  | none => some 3

def msPerDay : Int := 86400000

/-- The upper bound `expiry_limit` as serialized in the query
(src/index.js lines 306-307): `setDate(getDate() + days)` advances the
date by whole days; with `days` NaN the Date is invalid and the BSON
driver serializes its time value as 0 (`Long.fromNumber(NaN)`). -/
def expiryLimitMs (today : Int) (days : Option Int) : Int :=
  match days with
  | some d => today + d * msPerDay
  | none => 0

/-- The `expiringItems` query (src/index.js lines 313-318):
`find({expiration_date: {$gte: start, $lte: stop}})`.  A `$gte`/`$lte`
range on a date only matches documents whose field holds a date value, so
a BSON-null `expiration_date` never matches. -/
def queryExpiringBetween (store : List FridgeItem) (start stop : Int) :
    List FridgeItem :=
  store.filter (fun it =>
    match it.expiration_date with
    | some d => decide (start ≤ d ∧ d ≤ stop)
    | none => false)

/-- The item-name selection of the recipe handler (src/index.js lines
313-329): names of the expiring items, or of the `$sample`-of-3 fallback
(the `sample` parameter) when none are expiring. -/
def chooseItems (store : List FridgeItem) (today : Int)
    (daysParam : Option String) (sample : List FridgeItem) : List String :=
  let expiring :=
    queryExpiringBetween store today (expiryLimitMs today (daysToExpire daysParam))
  let itemsList := expiring.map FridgeItem.name
  if itemsList.length = 0 then sample.map FridgeItem.name else itemsList

inductive RecipeResponse where
  /-- Status 404, `"No items found in fridge to make a recipe."`. -/
  | notFound : RecipeResponse
  /-- Status 200 with `recipe_for` and the generated recipes. -/
  | success (recipe_for : List String) (recipe : RecipeResult) : RecipeResponse
deriving DecidableEq, Repr

/-- The `GET /api/recipe` handler (src/index.js lines 301-351).  External
inputs: the `$sample` aggregation result and the text-generation call
outcome. -/
def recipeFlow (store : List FridgeItem) (today : Int)
    (daysParam : Option String) (sample : List FridgeItem)
    (call : Except String (List Char)) : RecipeResponse :=
  let itemsList := chooseItems store today daysParam sample
  if itemsList.length = 0 then .notFound
  else .success itemsList (getRecipeFromHF itemsList call)

/-! ## Well-formed block responses: the shape the prompt requests -/

/-- A canonical well-formed recipe block: a `Title:` line followed by a
`Description:` line, as the prompt instructs the model to produce. -/
def mkBlock (t d : List Char) : List Char :=
  "Title:".toList ++ t ++ '\n' :: ("Description:".toList ++ d)

/-- Blocks joined with the fixed `---` delimiter. -/
def joinBlocks : List (List Char) → List Char
  | [] => []
  | [b] => b
  | b :: bs => b ++ '-' :: '-' :: '-' :: joinBlocks bs

/-- Well-formedness of a block's title and description texts: single-line,
delimiter-free, the title not all-whitespace (so the `\s` run of the
title capture cannot swallow the line break), and no spurious
case-insensitive `description:` occurrence before the real label. -/
def wfBlock (t d : List Char) : Prop :=
  '\n' ∉ t ∧ '\n' ∉ d ∧ '-' ∉ t ∧ '-' ∉ d ∧ (∃ c ∈ t, isWS c = false) ∧
  ¬ descLabel <:+: (("Title:".toList ++ t ++ ['\n']).map Char.toLower)

instance wfBlockDecidable (t d : List Char) : Decidable (wfBlock t d) := by
  unfold wfBlock
  infer_instance

end Iot

namespace Iot

/-! ## Ingest handler theorems -/

/-- C1.  After a successful fridge-state write in an ingest cycle, the
store holds exactly the cycle's detected items (with the converted
expiration date, and modulo the added `last_seen` timestamp), whatever the
prior contents: listing the contents and stripping the added metadata
recovers exactly the converted input items, replacing with the empty list
leaves the store empty, and nothing of the prior state survives (the
result does not depend on `st`). -/
theorem replace_listAll_exact (parseDate : String → Int) (st st' : ServerState)
    (req : PiRequest) (ts : Int) (vi : Option (List DetectedItem))
    (eventWriteOk : Bool)
    (himg : imagePresent req = true) :
    ((listAll (processPiData parseDate st req ts (.ok vi) none eventWriteOk).2.fridge).map
        stripMeta
      = (vi.getD []).map (fun it => stripMeta (toFridgeItem parseDate ts it)))
    ∧ (vi.getD [] = [] →
        listAll (processPiData parseDate st req ts (.ok vi) none eventWriteOk).2.fridge = [])
    ∧ ((processPiData parseDate st req ts (.ok vi) none eventWriteOk).2.fridge
        = (processPiData parseDate st' req ts (.ok vi) none eventWriteOk).2.fridge) := by
  refine ⟨?_, ?_, ?_⟩
  · simp [processPiData, himg, listAll, replaceFridge]
  · intro h
    simp [processPiData, himg, listAll, replaceFridge, h]
  · simp [processPiData, himg, replaceFridge]

/-- Witness for `replace_listAll_exact`: a prior store with one leftover
item, replaced first by two detected items and then by none. -/
theorem replace_listAll_exact_witness :
    ((listAll (processPiData (fun _ => 0) ⟨[⟨"old", none, 0⟩], []⟩
          ⟨some "img", some 80, some "closed", some "door_opened"⟩ 5
          (.ok (some [⟨"milk", some "2025-01-01"⟩, ⟨"egg", none⟩])) none true).2.fridge).map
        stripMeta
      = [("milk", some 0), ("egg", none)])
    ∧ listAll (processPiData (fun _ => 0) ⟨[⟨"old", none, 0⟩], []⟩
          ⟨some "img", some 80, some "closed", some "door_opened"⟩ 5
          (.ok (some [])) none true).2.fridge = [] := by
  have h1 := replace_listAll_exact (fun _ => 0) ⟨[⟨"old", none, 0⟩], []⟩
    ⟨[], []⟩ ⟨some "img", some 80, some "closed", some "door_opened"⟩ 5
    (some [⟨"milk", some "2025-01-01"⟩, ⟨"egg", none⟩]) true (by decide)
  have h2 := replace_listAll_exact (fun _ => 0) ⟨[⟨"old", none, 0⟩], []⟩
    ⟨[], []⟩ ⟨some "img", some 80, some "closed", some "door_opened"⟩ 5
    (some []) true (by decide)
  exact ⟨by simpa [stripMeta, toFridgeItem] using h1.1, h2.2.1 rfl⟩

/-- C4.  A failure before vision completes leaves the store untouched:
a missing (or empty, hence falsy) image yields the 400 client error with
both collections unchanged, and a vision failure yields the 500 server
error with both collections unchanged — regardless of the would-be write
outcomes. -/
theorem ingest_failure_no_writes (parseDate : String → Int) (st : ServerState)
    (req : PiRequest) (ts : Int) (e : String)
    (vision : Except String (Option (List DetectedItem)))
    (fridgeWrite : FridgeWriteOutcome) (eventWriteOk : Bool) :
    (imagePresent req = false →
      processPiData parseDate st req ts vision fridgeWrite eventWriteOk
        = (.clientError, st))
    ∧ (imagePresent req = true →
      processPiData parseDate st req ts (.error e) fridgeWrite eventWriteOk
        = (.serverError, st)) := by
  constructor
  · intro h
    simp [processPiData, h]
  · intro h
    simp [processPiData, h]

/-- Witness for `ingest_failure_no_writes`: a request with no image field,
and one with an image but a failing vision subprocess, against a non-empty
store. -/
theorem ingest_failure_no_writes_witness :
    processPiData (fun _ => 0) ⟨[⟨"old", none, 0⟩], []⟩
        ⟨none, some 80, some "open", none⟩ 5 (.ok (some [⟨"milk", none⟩]))
        none true
      = (.clientError, ⟨[⟨"old", none, 0⟩], []⟩)
    ∧ processPiData (fun _ => 0) ⟨[⟨"old", none, 0⟩], []⟩
        ⟨some "img", some 80, some "open", none⟩ 5 (.error "boom")
        none true
      = (.serverError, ⟨[⟨"old", none, 0⟩], []⟩) :=
  ⟨(ingest_failure_no_writes (fun _ => 0) ⟨[⟨"old", none, 0⟩], []⟩
      ⟨none, some 80, some "open", none⟩ 5 "unused" (.ok (some [⟨"milk", none⟩]))
      none true).1 (by decide),
   (ingest_failure_no_writes (fun _ => 0) ⟨[⟨"old", none, 0⟩], []⟩
      ⟨some "img", some 80, some "open", none⟩ 5 "boom" (.ok none)
      none true).2 (by decide)⟩

/-- C5.  Once vision succeeds, the response is the 200 success carrying
the combined `ml_result` (the detected items, the sensor alert flag and
reason), whatever the outcomes of the fridge-state write and of the
fire-and-forget event insert: both persistence failures are recovered and
never change the response. -/
theorem ingest_response_independent_of_persistence
    (parseDate : String → Int) (st : ServerState) (req : PiRequest) (ts : Int)
    (vi : Option (List DetectedItem))
    (fridgeWrite : FridgeWriteOutcome) (eventWriteOk : Bool)
    (himg : imagePresent req = true) :
    (processPiData parseDate st req ts (.ok vi) fridgeWrite eventWriteOk).1
      = .success ⟨vi.getD [],
          (runSensorLogic ⟨req.gas_level_percent, req.door_status⟩).is_alert,
          (runSensorLogic ⟨req.gas_level_percent, req.door_status⟩).alert_reason⟩ := by
  simp [processPiData, himg]

/-- Witness for `ingest_response_independent_of_persistence`: both the
fridge write and the event insert fail, yet the caller still receives the
success response with the computed `ml_result`. -/
theorem ingest_response_independent_of_persistence_witness :
    (processPiData (fun _ => 0) ⟨[], []⟩ ⟨some "img", some 80, some "closed", none⟩ 5
        (.ok (some [⟨"milk", none⟩])) (some [⟨"junk", none, 1⟩]) false).1
      = .success ⟨[⟨"milk", none⟩], true, "Sensor Alert: High gas level detected!"⟩ := by
  have h := ingest_response_independent_of_persistence (fun _ => 0) ⟨[], []⟩
    ⟨some "img", some 80, some "closed", none⟩ 5 (some [⟨"milk", none⟩])
    (some [⟨"junk", none, 1⟩]) false (by decide)
  simpa [runSensorLogic, gasHigh] using h

/-! ## Sensor Evaluator theorems -/

/-- C3.  The sensor evaluator is first-match-wins: a gas level above 50
alerts with the gas reason regardless of the door; otherwise an open door
alerts with the door reason; otherwise the all-clear default.  A missing
gas field never counts as high, so missing/invalid fields fall through to
the non-alerting default. -/
theorem runSensorLogic_priority (d : SensorData) :
    (gasHigh d = true ↔ ∃ g, d.gas_level_percent = some g ∧ g > 50)
    ∧ (gasHigh d = true →
        runSensorLogic d = ⟨true, "Sensor Alert: High gas level detected!"⟩)
    ∧ (gasHigh d = false → d.door_status = some "open" →
        runSensorLogic d = ⟨true, "Sensor Alert: Door is open."⟩)
    ∧ (gasHigh d = false → d.door_status ≠ some "open" →
        runSensorLogic d = ⟨false, "Sensor: All clear."⟩)
    ∧ (d.gas_level_percent = none → gasHigh d = false) := by
  refine ⟨?_, ?_, ?_, ?_, ?_⟩
  · constructor
    · intro h
      cases hg : d.gas_level_percent with
      | none => simp [gasHigh, hg] at h
      | some g =>
        refine ⟨g, rfl, ?_⟩
        simpa [gasHigh, hg] using h
    · rintro ⟨g, hg, hgt⟩
      simp [gasHigh, hg, hgt]
  · intro h
    simp [runSensorLogic, h]
  · intro h hd
    simp [runSensorLogic, h, hd]
  · intro h hd
    simp [runSensorLogic, h, hd]
  · intro h
    simp [gasHigh, h]

/-! ## Fridge store query theorems -/

/-- C2.  The expiring-items query returns exactly the stored items
whose expiration date lies in the inclusive window `[start, stop]`;
items stored with a null expiration date are excluded. -/
theorem queryExpiringBetween_spec (store : List FridgeItem)
    (start stop : Int) (it : FridgeItem) :
    it ∈ queryExpiringBetween store start stop
      ↔ it ∈ store ∧ ∃ d, it.expiration_date = some d ∧ start ≤ d ∧ d ≤ stop := by
  simp only [queryExpiringBetween, List.mem_filter]
  constructor
  · rintro ⟨hmem, hcond⟩
    refine ⟨hmem, ?_⟩
    cases hd : it.expiration_date with
    | none => rw [hd] at hcond; exact absurd hcond (by simp)
    | some d =>
      rw [hd] at hcond
      exact ⟨d, rfl, of_decide_eq_true hcond⟩
  · rintro ⟨hmem, d, hd, hrange⟩
    exact ⟨hmem, by rw [hd]; exact decide_eq_true hrange⟩

/-! ## Recipe endpoint theorems -/

/-- C6.  When no stored item expires inside the window, the flow uses
the names of the up-to-3 random sample as the topic set; since `$sample`
returns no documents exactly on an empty collection, the request then
fails as not-found precisely when the fridge is empty — and in that case
the response is `notFound` for every possible text-generation outcome,
i.e. the external service is never consulted. -/
theorem recipeFlow_fallback (store sample : List FridgeItem) (today : Int)
    (daysParam : Option String) (call : Except String (List Char))
    (hq : queryExpiringBetween store today
        (expiryLimitMs today (daysToExpire daysParam)) = [])
    (hs : sample = [] ↔ store = [])
    (_hlen : sample.length ≤ 3) (_hsub : ∀ x ∈ sample, x ∈ store) :
    chooseItems store today daysParam sample = sample.map FridgeItem.name
    ∧ (store = [] →
        recipeFlow store today daysParam sample call = .notFound)
    ∧ (store ≠ [] →
        recipeFlow store today daysParam sample call
          = .success (sample.map FridgeItem.name)
              (getRecipeFromHF (sample.map FridgeItem.name) call)) := by
  have hchoose : chooseItems store today daysParam sample
      = sample.map FridgeItem.name := by
    simp [chooseItems, hq]
  refine ⟨hchoose, ?_, ?_⟩
  · intro hst
    have hc2 : chooseItems store today daysParam sample = [] := by
      rw [hchoose, hs.mpr hst]; rfl
    simp [recipeFlow, hc2]
  · intro hst
    have hne : sample ≠ [] := fun h => hst (hs.mp h)
    have hlen0 : (sample.map FridgeItem.name).length ≠ 0 := by
      simpa using hne
    simp [recipeFlow, hchoose, hlen0, hne]

/-- Witness for `recipeFlow_fallback`: an empty fridge yields `notFound`,
and a one-item fridge whose item expired outside the window yields a
success built from the sampled item. -/
theorem recipeFlow_fallback_witness :
    recipeFlow [] 100 none [] (.error "down") = .notFound
    ∧ recipeFlow [⟨"milk", some 1, 0⟩] 100 none [⟨"milk", some 1, 0⟩]
          (.error "down")
        = .success ["milk"] (getRecipeFromHF ["milk"] (.error "down")) := by
  have h1 := recipeFlow_fallback [] [] 100 none (.error "down")
    (by decide) (by decide) (by decide) (by intro x hx; exact absurd hx (by simp))
  have h2 := recipeFlow_fallback [⟨"milk", some 1, 0⟩] [⟨"milk", some 1, 0⟩]
    100 none (.error "down")
    (by decide) (by decide) (by decide) (by intro x hx; simpa using hx)
  exact ⟨h1.2.1 rfl, by simpa using h2.2.2 (by decide)⟩

/-- C10, amended.  A present, *non-empty* `days` parameter that does
not parse as an integer is not rejected: `parseInt` yields NaN, the upper
bound serializes as the invalid-date time value, the expiring query
matches nothing (its window `[today, 0]` is empty since `today > 0`), and
the flow proceeds exactly as in the no-expiring-items fallback — ending
in the sample-based success or the not-found response, never a client
error (the handler has no 400 path). -/
theorem recipeFlow_unparseable_days (store sample : List FridgeItem)
    (today : Int) (s : String) (call : Except String (List Char))
    (hs : s ≠ "") (hp : parseIntJs s = none) (ht : 0 < today) :
    queryExpiringBetween store today
        (expiryLimitMs today (daysToExpire (some s))) = []
    ∧ chooseItems store today (some s) sample = sample.map FridgeItem.name
    ∧ recipeFlow store today (some s) sample call
        = (if sample.length = 0 then .notFound
           else .success (sample.map FridgeItem.name)
              (getRecipeFromHF (sample.map FridgeItem.name) call)) := by
  have hdays : daysToExpire (some s) = none := by
    simp [daysToExpire, hs, hp]
  have hq : queryExpiringBetween store today
      (expiryLimitMs today (daysToExpire (some s))) = [] := by
    rw [hdays]
    refine List.filter_eq_nil_iff.mpr ?_
    intro it _
    cases hd : it.expiration_date with
    | none => simp
    | some d =>
      simp only [expiryLimitMs]
      refine (Bool.not_eq_true _).mpr (decide_eq_false ?_)
      rintro ⟨h1, h2⟩
      omega
  have hchoose : chooseItems store today (some s) sample
      = sample.map FridgeItem.name := by
    simp [chooseItems, hq]
  refine ⟨hq, hchoose, ?_⟩
  by_cases hsamp : sample.length = 0
  · have hc2 : chooseItems store today (some s) sample = [] := by
      rw [hchoose, List.length_eq_zero.mp hsamp]; rfl
    simp [recipeFlow, hc2, hsamp]
  · have hlen0 : (sample.map FridgeItem.name).length ≠ 0 := by
      simpa using hsamp
    simp [recipeFlow, hchoose, hlen0, hsamp]

/-- Witness for `recipeFlow_unparseable_days`: `days=abc` against a
one-item store whose item would match any honest window around `today`;
the item is still not selected and the flow falls back to the sample. -/
theorem recipeFlow_unparseable_days_witness :
    queryExpiringBetween [⟨"milk", some 150, 0⟩] 100
        (expiryLimitMs 100 (daysToExpire (some "abc"))) = []
    ∧ recipeFlow [⟨"milk", some 150, 0⟩] 100 (some "abc")
          [⟨"milk", some 150, 0⟩] (.error "down")
        = .success ["milk"] (getRecipeFromHF ["milk"] (.error "down")) := by
  have h := recipeFlow_unparseable_days [⟨"milk", some 150, 0⟩]
    [⟨"milk", some 150, 0⟩] 100 "abc" (.error "down")
    (by decide) (by decide) (by decide)
  exact ⟨h.1, by simpa using h.2.2⟩

/-- C10, counterexample to the unamended claim.  The claim quantifies
over every present-but-unparseable `days` value, but the empty string is
present and unparseable (`parseInt("")` is NaN) while the handler treats
it as falsy and uses the default 3-day window — so the parsed value is
not NaN and the query can match items: here it matches `milk`, and the
flow returns a success built from the expiring item, not the fallback
(which, with an empty sample, would have been `notFound`). -/
theorem recipeFlow_days_empty_string_counterexample :
    parseIntJs "" = none
    ∧ daysToExpire (some "") = some 3
    ∧ queryExpiringBetween [⟨"milk", some (2 * msPerDay), 100⟩] 100
        (expiryLimitMs 100 (daysToExpire (some "")))
        = [⟨"milk", some (2 * msPerDay), 100⟩]
    ∧ recipeFlow [⟨"milk", some (2 * msPerDay), 100⟩] 100 (some "") []
          (.error "down")
        = .success ["milk"] (getRecipeFromHF ["milk"] (.error "down")) := by
  refine ⟨by decide, by decide, by decide, ?_⟩
  simp [recipeFlow, chooseItems]
  decide

/-! ## Recipe Requester theorems -/

/-- C9.  For a non-empty item-name list, a failed text-generation call
is recovered: the requester returns exactly one Recipe indicating
generation failure.  (The embedding is a total function: no exception
escapes — the caller always receives a `RecipeResult`.) -/
theorem getRecipeFromHF_error_recovered (objects : List String) (e : String)
    (hobj : objects ≠ []) :
    getRecipeFromHF objects (.error e)
      = ⟨[{ title := "Recipe Generation Failed".toList
            description := "Could not generate recipe. Check server logs.".toList }]⟩ := by
  have : objects.length > 0 := List.length_pos.mpr hobj
  simp [getRecipeFromHF, this]

/-- Witness for `getRecipeFromHF_error_recovered`. -/
theorem getRecipeFromHF_error_recovered_witness :
    getRecipeFromHF ["tomato"] (.error "ECONNREFUSED")
      = ⟨[{ title := "Recipe Generation Failed".toList
            description := "Could not generate recipe. Check server logs.".toList }]⟩ :=
  getRecipeFromHF_error_recovered ["tomato"] "ECONNREFUSED" (by decide)

/-- C8.  When the parser (both-labels path and two-line fallback
included) produces zero Recipes from a non-empty generated text, the
requester salvages: exactly one Recipe whose title flags the parsing
failure and whose description is the whole raw text (the generated text
after the source's own trim). -/
theorem getRecipeFromHF_salvage (objects : List String) (raw : List Char)
    (hobj : objects ≠ []) (hparse : parsedRecipes (trimList raw) = [])
    (hne : trimList raw ≠ []) :
    getRecipeFromHF objects (.ok raw)
      = ⟨[{ title := "Generated Recipes (Parsing Failed)".toList
            description := trimList raw }]⟩ := by
  have hlen : objects.length > 0 := List.length_pos.mpr hobj
  have hlen2 : (trimList raw).length > 0 := List.length_pos.mpr hne
  simp [getRecipeFromHF, hlen, hparse, hlen2]

/-- Witness for `getRecipeFromHF_salvage`: a 12-character single-line
response with no labels parses to nothing (one block, no label match, and
the fallback needs two lines), so the salvage Recipe carries the text. -/
theorem getRecipeFromHF_salvage_witness :
    getRecipeFromHF ["tomato"] (.ok "hello world!".toList)
      = ⟨[{ title := "Generated Recipes (Parsing Failed)".toList
            description := "hello world!".toList }]⟩ := by
  have h := getRecipeFromHF_salvage ["tomato"] "hello world!".toList
    (by decide) (by decide) (by decide)
  simpa using h

/-! ### Parsing of well-formed block responses (C7)

The delimiter split: scanning equations and the round trip with
`joinBlocks` for delimiter-free blocks. -/

theorem splitDashes_ne_nil (s : List Char) : splitDashes s ≠ [] := by
  induction s using splitDashes.induct with
  | case1 rest ih => simp [splitDashes]
  | case2 c rest hg hnil ih => rw [splitDashes.eq_def]; split <;> simp_all
  | case3 c rest hg l ls hcons ih => rw [splitDashes.eq_def]; split <;> simp_all
  | case4 => simp [splitDashes]

theorem splitDashes_cons_ne (c : Char) (rest l : List Char) (ls : List (List Char))
    (hc : c ≠ '-') (h : splitDashes rest = l :: ls) :
    splitDashes (c :: rest) = (c :: l) :: ls := by
  rw [splitDashes.eq_def]
  split
  · next rest2 heq => exact absurd (List.cons.inj heq).1 hc
  · next c2 rest2 hg heq =>
    obtain ⟨hc2, hr⟩ := List.cons.inj heq
    subst hc2 hr
    rw [h]
  · next heq => exact absurd heq (by simp)

theorem splitDashes_no_dash (b : List Char) (hb : '-' ∉ b) :
    splitDashes b = [b] := by
  induction b with
  | nil => rfl
  | cons c b ih =>
    have hc : c ≠ '-' := fun h => hb (h ▸ List.mem_cons_self c b)
    have hb2 : '-' ∉ b := fun h => hb (List.mem_cons_of_mem c h)
    exact splitDashes_cons_ne c b b [] hc (ih hb2)

theorem splitDashes_block_append (b r : List Char) (hb : '-' ∉ b) :
    splitDashes (b ++ '-' :: '-' :: '-' :: r) = b :: splitDashes r := by
  induction b with
  | nil => rfl
  | cons c b ih =>
    have hc : c ≠ '-' := fun h => hb (h ▸ List.mem_cons_self c b)
    have hb2 : '-' ∉ b := fun h => hb (List.mem_cons_of_mem c h)
    obtain ⟨l, ls, hls⟩ : ∃ l ls, splitDashes (b ++ '-' :: '-' :: '-' :: r) = l :: ls := by
      rcases hsp : splitDashes (b ++ '-' :: '-' :: '-' :: r) with _ | ⟨l, ls⟩
      · exact absurd hsp (splitDashes_ne_nil _)
      · exact ⟨l, ls, rfl⟩
    rw [List.cons_append, splitDashes_cons_ne c _ l ls hc hls]
    rw [ih hb2] at hls
    obtain ⟨h1, h2⟩ := List.cons.inj hls
    rw [h1, h2]

theorem splitDashes_joinBlocks (bs : List (List Char)) (hne : bs ≠ [])
    (hb : ∀ b ∈ bs, '-' ∉ b) : splitDashes (joinBlocks bs) = bs := by
  induction bs with
  | nil => exact absurd rfl hne
  | cons b bs ih =>
    cases bs with
    | nil => exact splitDashes_no_dash b (hb b (List.mem_cons_self b []))
    | cons b2 bs2 =>
      have hj : joinBlocks (b :: b2 :: bs2)
          = b ++ '-' :: '-' :: '-' :: joinBlocks (b2 :: bs2) := rfl
      rw [hj, splitDashes_block_append b _ (hb b (List.mem_cons_self _ _)),
        ih (by simp) (fun x hx => hb x (List.mem_cons_of_mem b hx))]

/-! The label matcher: one unfolding step, skipping over text with no
label occurrence, and the capture at a label occurrence. -/

theorem matchLabel_cons (label : List Char) (c : Char) (rest : List Char) :
    matchLabel label (c :: rest) =
      if label.isPrefixOf ((c :: rest).map Char.toLower) then
        some (captureFrom ((c :: rest).drop label.length))
      else matchLabel label rest := rfl

theorem matchLabel_headMatch (label : List Char) (c : Char) (rest : List Char)
    (h : label.isPrefixOf ((c :: rest).map Char.toLower) = true) :
    matchLabel label (c :: rest)
      = some (captureFrom ((c :: rest).drop label.length)) := by
  rw [matchLabel_cons, if_pos h]

theorem matchLabel_append_of_noMatch (label u v : List Char)
    (h : ∀ w, w ≠ [] → w <:+ u →
      ¬ label.isPrefixOf ((w ++ v).map Char.toLower) = true) :
    matchLabel label (u ++ v) = matchLabel label v := by
  induction u with
  | nil => rfl
  | cons c u ih =>
    have hno : ¬ label.isPrefixOf ((c :: (u ++ v)).map Char.toLower) = true := by
      simpa using h (c :: u) (by simp) List.suffix_rfl
    rw [List.cons_append, matchLabel_cons, if_neg hno]
    exact ih (fun w hw hsuf => h w hw (hsuf.trans (List.suffix_cons c u)))

theorem noMatch_of_no_occurrence (label u0 v : List Char) (hnl : '\n' ∉ label)
    (hinf : ¬ label <:+: ((u0 ++ ['\n']).map Char.toLower)) :
    ∀ w, w ≠ [] → w <:+ (u0 ++ ['\n']) →
      ¬ label.isPrefixOf ((w ++ v).map Char.toLower) = true := by
  intro w hne hw hpre
  rw [ List.isPrefixOf_iff_prefix, List.map_append] at hpre
  by_cases hl : label.length ≤ w.length
  · have ht := List.prefix_iff_eq_take.mp hpre
    rw [List.take_append_of_le_length (by simpa using hl)] at ht
    have h1 : label <+: w.map Char.toLower :=
      ht ▸ List.take_prefix label.length (w.map Char.toLower)
    have hi1 : label <:+: w.map Char.toLower := List.IsPrefix.isInfix h1
    have hi2 : w.map Char.toLower <:+: (u0 ++ ['\n']).map Char.toLower :=
      List.IsSuffix.isInfix (hw.map Char.toLower)
    exact hinf (hi1.trans hi2)
  · push_neg at hl
    obtain ⟨r, hr⟩ := hpre
    have hwlen : 0 < w.length := List.length_pos.mpr hne
    have hjw : w.length - 1 < w.length := by omega
    have hjl : w.length - 1 < label.length := by omega
    have hlast : w.getLast? = some '\n' := by
      obtain ⟨p, hp⟩ := hw
      have h1 : (p ++ w).getLast? = some '\n' := by
        rw [hp]
        exact List.getLast?_concat _
      rw [List.getLast?_append] at h1
      rw [List.getLast?_eq_getElem?] at h1 ⊢
      cases hx : w[w.length - 1]? with
      | none =>
        exact absurd hx (by simp [List.getElem?_eq_some_iff]; omega)
      | some a => simp [hx] at h1 ⊢; simpa [hx] using h1
    have hidx := congrArg (fun l => l[w.length - 1]?) hr
    simp only [List.getElem?_append_left (by simpa using hjl),
      List.getElem?_append_left
        (show w.length - 1 < (w.map Char.toLower).length by simpa using hjw),
      List.getElem?_map] at hidx
    rw [List.getLast?_eq_getElem?] at hlast
    rw [hlast] at hidx
    have hsome : label[w.length - 1]? = some '\n' := by simpa using hidx
    have hmem : '\n' ∈ label := by
      obtain ⟨hlt, hget⟩ := List.getElem?_eq_some_iff.mp hsome
      exact hget ▸ List.getElem_mem hlt
    exact hnl hmem

theorem captureFrom_noNl (d : List Char) (hnd : '\n' ∉ d) :
    captureFrom d = d.dropWhile isWS := by
  unfold captureFrom
  rw [List.takeWhile_eq_self_iff.mpr]
  intro x hx
  have hxd : x ∈ d := (List.dropWhile_sublist isWS).mem hx
  simp only [ne_eq, decide_eq_true_eq]
  intro h
  exact hnd (h ▸ hxd)

theorem captureFrom_line (x v : List Char) (hnx : '\n' ∉ x)
    (hex : ∃ c ∈ x, isWS c = false) :
    captureFrom (x ++ '\n' :: v) = x.dropWhile isWS := by
  have hne : ¬ (x.dropWhile isWS).isEmpty := by
    obtain ⟨c, hc, hw⟩ := hex
    rw [List.isEmpty_iff]
    intro h
    have := List.dropWhile_eq_nil_iff.mp h c hc
    simp [hw] at this
  unfold captureFrom
  rw [List.dropWhile_append, if_neg (by simpa using hne)]
  have hall : ∀ a ∈ x.dropWhile isWS, (fun c => decide (c ≠ '\n')) a = true := by
    intro a ha
    have hax : a ∈ x := (List.dropWhile_sublist isWS).mem ha
    simp only [ne_eq, decide_eq_true_eq]
    intro h
    exact hnx (h ▸ hax)
  rw [List.takeWhile_append_of_pos hall]
  simp [List.takeWhile_cons]

theorem matchTitle_mkBlock (t d : List Char) (hnt : '\n' ∉ t)
    (hex : ∃ c ∈ t, isWS c = false) :
    matchLabel titleLabel (mkBlock t d) = some (t.dropWhile isWS) := by
  have hcons : mkBlock t d
      = 'T' :: 'i' :: 't' :: 'l' :: 'e' :: ':' ::
        (t ++ '\n' :: ("Description:".toList ++ d)) := rfl
  have hpre : titleLabel.isPrefixOf
      (('T' :: 'i' :: 't' :: 'l' :: 'e' :: ':' ::
        (t ++ '\n' :: ("Description:".toList ++ d))).map Char.toLower) = true := by
    rw [ List.isPrefixOf_iff_prefix]
    exact ⟨(t ++ '\n' :: ("Description:".toList ++ d)).map Char.toLower, rfl⟩
  rw [hcons, matchLabel_headMatch _ _ _ hpre]
  have hdrop : ('T' :: 'i' :: 't' :: 'l' :: 'e' :: ':' ::
      (t ++ '\n' :: ("Description:".toList ++ d))).drop titleLabel.length
      = t ++ '\n' :: ("Description:".toList ++ d) := rfl
  rw [hdrop, captureFrom_line t _ hnt hex]

theorem matchDesc_mkBlock (t d : List Char) (hnd : '\n' ∉ d)
    (hinf : ¬ descLabel <:+: (("Title:".toList ++ t ++ ['\n']).map Char.toLower)) :
    matchLabel descLabel (mkBlock t d) = some (d.dropWhile isWS) := by
  have hshape : mkBlock t d
      = ("Title:".toList ++ t ++ ['\n']) ++ ("Description:".toList ++ d) := by
    simp [mkBlock]
  rw [hshape, matchLabel_append_of_noMatch _ _ _
    (noMatch_of_no_occurrence descLabel ("Title:".toList ++ t) _ (by decide) hinf)]
  have hcons : "Description:".toList ++ d
      = 'D' :: 'e' :: 's' :: 'c' :: 'r' :: 'i' :: 'p' :: 't' :: 'i' :: 'o' :: 'n' :: ':' :: d :=
    rfl
  have hpre : descLabel.isPrefixOf
      (('D' :: 'e' :: 's' :: 'c' :: 'r' :: 'i' :: 'p' :: 't' :: 'i' :: 'o' :: 'n' :: ':' :: d).map
        Char.toLower) = true := by
    rw [ List.isPrefixOf_iff_prefix]
    exact ⟨d.map Char.toLower, rfl⟩
  rw [hcons, matchLabel_headMatch _ _ _ hpre]
  have hdrop :
      ('D' :: 'e' :: 's' :: 'c' :: 'r' :: 'i' :: 'p' :: 't' :: 'i' :: 'o' :: 'n' :: ':' :: d).drop
        descLabel.length = d := rfl
  rw [hdrop, captureFrom_noNl d hnd]

theorem trimList_dropWhile (s : List Char) :
    trimList (s.dropWhile isWS) = trimList s := by
  unfold trimList
  rw [List.dropWhile_idempotent]

theorem parseBlock_mkBlock (t d : List Char) (h : wfBlock t d) :
    parseBlock (mkBlock t d)
      = [{ title := trimList t, description := trimList d }] := by
  obtain ⟨hnt, hnd, _, _, hex, hinf⟩ := h
  have h1 := matchTitle_mkBlock t d hnt hex
  have h2 := matchDesc_mkBlock t d hnd hinf
  unfold parseBlock
  rw [h1, h2]
  show [({ title := trimList (t.dropWhile isWS),
           description := trimList (d.dropWhile isWS) } : Recipe)] = _
  rw [trimList_dropWhile, trimList_dropWhile]

theorem dash_not_mem_mkBlock (t d : List Char) (ht : '-' ∉ t) (hd : '-' ∉ d) :
    '-' ∉ mkBlock t d := by
  intro hmem
  simp only [mkBlock, List.mem_append, List.mem_cons] at hmem
  rcases hmem with (h | h) | h | h | h
  · exact absurd h (by decide)
  · exact ht h
  · exact absurd h (by decide)
  · exact absurd h (by decide)
  · exact hd h

theorem parsedRecipes_joinBlocks (pairs : List (List Char × List Char))
    (hne : pairs ≠ []) (hwf : ∀ p ∈ pairs, wfBlock p.1 p.2) :
    parsedRecipes (joinBlocks (pairs.map (fun p => mkBlock p.1 p.2)))
      = pairs.map
          (fun p => { title := trimList p.1, description := trimList p.2 : Recipe }) := by
  unfold parsedRecipes
  rw [splitDashes_joinBlocks _ (by simpa using hne)
    (by
      intro b hb
      obtain ⟨p, hp, hpb⟩ := List.mem_map.mp hb
      obtain ⟨_, _, h3, h4, _, _⟩ := hwf p hp
      exact hpb ▸ dash_not_mem_mkBlock p.1 p.2 h3 h4)]
  clear hne
  induction pairs with
  | nil => rfl
  | cons p ps ih =>
    simp only [List.map_cons, List.flatten_cons]
    rw [parseBlock_mkBlock p.1 p.2 (hwf p (List.mem_cons_self _ _)),
      ih (fun q hq => hwf q (List.mem_cons_of_mem _ hq))]
    rfl

/-- C7. A generated response consisting of delimiter-separated
well-formed blocks — each a case-insensitive `Title:` line followed by a
`Description:` line — parses to exactly one Recipe per block, whose title
and description are the labeled texts with surrounding whitespace
trimmed; in particular two valid blocks yield exactly two Recipes.
(`htrim` states that the response carries no leading/trailing whitespace,
so the source's initial trim leaves it unchanged.) -/
theorem getRecipeFromHF_parses_blocks (objects : List String)
    (pairs : List (List Char × List Char))
    (hobj : objects ≠ []) (hne : pairs ≠ [])
    (hwf : ∀ p ∈ pairs, wfBlock p.1 p.2)
    (htrim : trimList (joinBlocks (pairs.map (fun p => mkBlock p.1 p.2)))
        = joinBlocks (pairs.map (fun p => mkBlock p.1 p.2))) :
    getRecipeFromHF objects (.ok (joinBlocks (pairs.map (fun p => mkBlock p.1 p.2))))
      = ⟨pairs.map (fun p =>
          { title := trimList p.1, description := trimList p.2 })⟩ := by
  have hobj2 : objects.length > 0 := List.length_pos.mpr hobj
  have hparse := parsedRecipes_joinBlocks pairs hne hwf
  have hlen : (pairs.map (fun p =>
      ({ title := trimList p.1, description := trimList p.2 } : Recipe))).length ≠ 0 := by
    simpa using hne
  simp only [getRecipeFromHF, htrim, hparse, if_pos hobj2]
  rw [if_neg (fun hc => hlen hc.1)]

/-- Witness for `getRecipeFromHF_parses_blocks`: two well-formed blocks
joined with the delimiter parse to exactly those two Recipes. -/
theorem getRecipeFromHF_parses_blocks_witness :
    getRecipeFromHF ["tomato"] (.ok (joinBlocks
        ([("Tomato Soup".toList, "A warm classic.".toList),
          ("Egg Fried Rice".toList, "Quick wok meal.".toList)].map
          (fun p => mkBlock p.1 p.2))))
      = ⟨[{ title := "Tomato Soup".toList, description := "A warm classic.".toList },
          { title := "Egg Fried Rice".toList, description := "Quick wok meal.".toList }]⟩ := by
  have h := getRecipeFromHF_parses_blocks ["tomato"]
    [("Tomato Soup".toList, "A warm classic.".toList),
     ("Egg Fried Rice".toList, "Quick wok meal.".toList)]
    (by decide) (by decide) (by decide) (by decide)
  rw [h]
  decide

/-- Witness for `runSensorLogic_priority`: concrete evaluations at a high
gas level with an open door, a normal level with an open door, and all
fields missing. -/
theorem runSensorLogic_priority_witness :
    runSensorLogic ⟨some 80, some "open"⟩
        = ⟨true, "Sensor Alert: High gas level detected!"⟩
    ∧ runSensorLogic ⟨some 10, some "open"⟩
        = ⟨true, "Sensor Alert: Door is open."⟩
    ∧ runSensorLogic ⟨none, none⟩ = ⟨false, "Sensor: All clear."⟩ :=
  ⟨(runSensorLogic_priority ⟨some 80, some "open"⟩).2.1 (by decide),
   (runSensorLogic_priority ⟨some 10, some "open"⟩).2.2.1 (by decide) (by decide),
   (runSensorLogic_priority ⟨none, none⟩).2.2.2.1 (by decide) (by decide)⟩

end Iot
